import Mathlib

/-!
Shallow embedding of the Senior Care Agent data/state layer (`app.py`):
the five persistent tables (logs, medications, appointments, routines,
patient_profile) are modelled as Lean lists of row structures, and each
operation of the program that the specification describes is translated
into an explicit Lean function over those lists.  SQLite AUTOINCREMENT
ids are modelled with an explicit next-sequence number where a claim
needs them and omitted from tables whose claims never read them.
-/

namespace SeniorCare

/-- A row of the `routines` table: `date TEXT, task TEXT, scheduled_time TEXT,
completed BOOLEAN` (the AUTOINCREMENT `id` column is never read by the
scheduler, alert or alarm logic, so it is omitted from the embedding). -/
structure Routine where
  date : String
  task : String
  scheduled_time : String
  completed : Bool
  deriving Repr, DecidableEq

/-- The fixed default `(task, scheduled_time)` pairs inserted by
`check_and_create_daily_tasks` when today has no rows. -/
def default_pairs : List (String × String) :=
  [("Breakfast", "08:00"),
   ("Morning Meds", "09:00"),
   ("Lunch", "13:00"),
   ("Afternoon Walk", "17:00"),
   ("Dinner", "20:00"),
   ("Night Meds", "21:00")]

/-- The six rows inserted for date `today` by the daily seed, each with
`completed = false`. -/
def seeded_rows (today : String) : List Routine :=
  default_pairs.map (fun p => ⟨today, p.1, p.2, false⟩)

/-- `SELECT count(*) FROM routines WHERE date = ?` -/
def count_for_date (today : String) (db : List Routine) : Nat :=
  (db.filter (fun r => r.date = today)).length

/-- `check_and_create_daily_tasks` (app.py lines 89-109): count today's rows;
if the count is zero insert the six default rows, otherwise do nothing. -/
def check_and_create_daily_tasks (today : String) (db : List Routine) : List Routine :=
  if count_for_date today db = 0 then db ++ seeded_rows today else db

/-- Helper: the seeded rows all carry date `today`, so they all survive the
`WHERE date = ?` filter. -/
theorem count_for_date_seeded (today : String) :
    count_for_date today (seeded_rows today) = 6 := by
  simp [count_for_date, seeded_rows, default_pairs]

/-- Helper: counting distributes over append of row lists. -/
theorem count_for_date_append (today : String) (a b : List Routine) :
    count_for_date today (a ++ b) = count_for_date today a + count_for_date today b := by
  simp [count_for_date, List.filter_append]

/-- C1: the daily seed is idempotent per calendar date.  If any row for
`today` exists it is a no-op; if none exists it appends exactly the six
default `(task, scheduled_time)` rows, each with `completed = false`; and a
second call on the same date changes nothing (in particular the row count
for that date is unchanged). -/
theorem daily_seed_idempotent (today : String) (db : List Routine) :
    (count_for_date today db ≠ 0 → check_and_create_daily_tasks today db = db)
    ∧ (count_for_date today db = 0 →
        check_and_create_daily_tasks today db = db ++ seeded_rows today
        ∧ count_for_date today (check_and_create_daily_tasks today db) = 6
        ∧ ∀ r ∈ seeded_rows today, r.completed = false)
    ∧ check_and_create_daily_tasks today (check_and_create_daily_tasks today db)
        = check_and_create_daily_tasks today db := by
  refine ⟨?_, ?_, ?_⟩
  · intro h
    simp [check_and_create_daily_tasks, h]
  · intro h
    refine ⟨by simp [check_and_create_daily_tasks, h], ?_, ?_⟩
    · simp [check_and_create_daily_tasks, h, count_for_date_append,
        count_for_date_seeded]
    · intro r hr
      simp only [seeded_rows, List.mem_map] at hr
      obtain ⟨p, _, rfl⟩ := hr
      rfl
  · by_cases h : count_for_date today db = 0
    · have h1 : check_and_create_daily_tasks today db = db ++ seeded_rows today := by
        simp [check_and_create_daily_tasks, h]
      have h2 : count_for_date today (check_and_create_daily_tasks today db) = 6 := by
        rw [h1, count_for_date_append, count_for_date_seeded, h]
      have h6 : ¬ count_for_date today (check_and_create_daily_tasks today db) = 0 := by
        rw [h2]; decide
      calc check_and_create_daily_tasks today (check_and_create_daily_tasks today db)
          = if count_for_date today (check_and_create_daily_tasks today db) = 0
            then check_and_create_daily_tasks today db ++ seeded_rows today
            else check_and_create_daily_tasks today db := rfl
        _ = check_and_create_daily_tasks today db := if_neg h6
    · simp [check_and_create_daily_tasks, h]

/-- C1 witness: the theorem instantiated on the empty table for a concrete
date; both hypothesis branches are discharged concretely. -/
theorem daily_seed_idempotent_witness :
    check_and_create_daily_tasks "2026-10-12" [] = [] ++ seeded_rows "2026-10-12"
    ∧ check_and_create_daily_tasks "2026-10-12"
        (check_and_create_daily_tasks "2026-10-12" []) =
      check_and_create_daily_tasks "2026-10-12" [] :=
  ⟨((daily_seed_idempotent "2026-10-12" []).2.1 (by decide)).1,
   (daily_seed_idempotent "2026-10-12" []).2.2⟩

/-- A row of the `patient_profile` table: `id INTEGER PRIMARY KEY
AUTOINCREMENT, age TEXT, conditions TEXT`. -/
structure ProfileRow where
  id : Nat
  age : String
  conditions : String
  deriving Repr, DecidableEq

/-- The `patient_profile` table together with its AUTOINCREMENT sequence
value (SQLite assigns `seq + 1` to a newly inserted row and bumps `seq`). -/
structure ProfileTable where
  rows : List ProfileRow
  seq : Nat
  deriving Repr, DecidableEq

/-- The profile-seeding part of `init_db` (app.py lines 80-83):
`SELECT count(*) FROM patient_profile`; if it is zero, insert the default
row `("75", "Hypertension, Arthritis")`.  Table creation is a no-op on the
embedded table value. -/
def init_db_profile (t : ProfileTable) : ProfileTable :=
  if t.rows.length = 0 then
    ⟨[⟨t.seq + 1, "75", "Hypertension, Arthritis"⟩], t.seq + 1⟩
  else t

/-- C2: however many times `init_db` runs (n ≥ 1) starting from an empty
`patient_profile` table, exactly one row exists afterwards, and it carries
the defaults age "75", conditions "Hypertension, Arthritis"; moreover the
default row is inserted only when the table is empty — on a nonempty table
`init_db` leaves `patient_profile` untouched. -/
theorem init_db_profile_singleton (n seq : Nat) (hn : 1 ≤ n) :
    (init_db_profile^[n] ⟨[], seq⟩).rows
      = [⟨seq + 1, "75", "Hypertension, Arthritis"⟩]
    ∧ (init_db_profile^[n] ⟨[], seq⟩).rows.length = 1
    ∧ ∀ t : ProfileTable, t.rows ≠ [] → init_db_profile t = t := by
  have hfix : ∀ t : ProfileTable, t.rows ≠ [] → init_db_profile t = t := by
    intro t ht
    have : t.rows.length ≠ 0 := by
      simpa [List.length_eq_zero] using ht
    simp [init_db_profile, this]
  have hstep : init_db_profile ⟨[], seq⟩
      = ⟨[⟨seq + 1, "75", "Hypertension, Arthritis"⟩], seq + 1⟩ := by
    simp [init_db_profile]
  obtain ⟨m, rfl⟩ : ∃ m, n = m + 1 := ⟨n - 1, by omega⟩
  clear hn
  have hiter : init_db_profile^[m + 1] ⟨[], seq⟩
      = ⟨[⟨seq + 1, "75", "Hypertension, Arthritis"⟩], seq + 1⟩ := by
    induction m with
    | zero => simpa using hstep
    | succ k ih =>
        rw [Function.iterate_succ_apply', ih, hfix]
        simp
  exact ⟨by rw [hiter], by rw [hiter]; rfl, hfix⟩

/-- C2 witness: three initializations from the empty table with sequence 0
leave exactly the single default row. -/
theorem init_db_profile_singleton_witness :
    (init_db_profile^[3] ⟨[], 0⟩).rows
      = [⟨1, "75", "Hypertension, Arthritis"⟩] :=
  (init_db_profile_singleton 3 0 (by decide)).1

/-- The Update Profile handler (app.py lines 516-522):
`UPDATE patient_profile SET age = ?, conditions = ? WHERE id = 1`.
Every row whose id is 1 receives the new age and conditions; every other
row is returned unchanged. -/
def update_profile (rows : List ProfileRow) (age cond : String) : List ProfileRow :=
  rows.map (fun r => if r.id = 1 then ⟨1, age, cond⟩ else r)

/-- The Dr. AI profile fetch (app.py lines 503-508):
`SELECT age, conditions FROM patient_profile` followed by `fetchone()` —
the first stored row, whatever its id. -/
def profile_fetch (rows : List ProfileRow) : Option (String × String) :=
  rows.head?.map (fun r => (r.age, r.conditions))

/-- C10: the profile update writes only to rows with id = 1 and leaves every
row with any other id unchanged in place; in particular, when no row has
id 1 (e.g. a re-seeded singleton with a higher autoincrement id) the whole
table — and hence what `profile_fetch` returns — is unchanged, even though
the read path returns whatever first row exists. -/
theorem update_profile_frame (rows : List ProfileRow) (age cond : String) :
    (update_profile rows age cond).length = rows.length
    ∧ (∀ (i : Nat) (r : ProfileRow), rows[i]? = some r → r.id ≠ 1 →
        (update_profile rows age cond)[i]? = some r)
    ∧ (∀ (i : Nat) (r : ProfileRow), rows[i]? = some r → r.id = 1 →
        (update_profile rows age cond)[i]? = some (⟨1, age, cond⟩ : ProfileRow))
    ∧ ((∀ r ∈ rows, r.id ≠ 1) →
        update_profile rows age cond = rows
        ∧ profile_fetch (update_profile rows age cond) = profile_fetch rows) := by
  refine ⟨by simp [update_profile], ?_, ?_, ?_⟩
  · intro i r hi hr
    simp [update_profile, List.getElem?_map, hi, hr]
  · intro i r hi hr
    simp [update_profile, List.getElem?_map, hi, hr]
  · intro hall
    have heq : ∀ l : List ProfileRow, (∀ r ∈ l, r.id ≠ 1) →
        update_profile l age cond = l := fun l => by
      induction l with
      | nil => intro _; rfl
      | cons a t ih =>
          intro hl
          have ha : a.id ≠ 1 := hl a (List.mem_cons_self a t)
          have ht := ih (fun r hr => hl r (List.mem_cons_of_mem a hr))
          simp only [update_profile, List.map_cons, if_neg ha] at *
          rw [ht]
    exact ⟨heq rows hall, by rw [heq rows hall]⟩

/-- C10 witness: on a table whose only row has id 2, updating leaves the
table (and the fetched profile) unchanged. -/
theorem update_profile_frame_witness :
    update_profile [⟨2, "80", "None"⟩] "81" "Flu" = [⟨2, "80", "None"⟩] :=
  ((update_profile_frame [⟨2, "80", "None"⟩] "81" "Flu").2.2.2 (by decide)).1

/-- Split a character list on a separator, Python `str.split(sep)` style:
always returns at least one (possibly empty) field. -/
def splitOnChar (sep : Char) : List Char → List (List Char)
  | [] => [[]]
  | c :: cs =>
      match splitOnChar sep cs with
      | [] => if c = sep then [[], []] else [[c]]
      | f :: rest => if c = sep then [] :: f :: rest else (c :: f) :: rest

/-- Numeric value of a digit string. -/
def digitsVal (cs : List Char) : Nat :=
  cs.foldl (fun n c => n * 10 + (c.toNat - 48)) 0

/-- Python `int(s)` restricted to the plain nonempty digit strings that occur
in "HH:MM" fields; anything else raises `ValueError`, modelled as `none`. -/
def py_int (cs : List Char) : Option Nat :=
  if !cs.isEmpty && cs.all (fun c => c.isDigit) then some (digitsVal cs) else none

/-- `datetime.strptime(s, "%H:%M")`: one or two digits giving hours 0-23,
a colon, one or two digits giving minutes 0-59, nothing else; a non-matching
string raises `ValueError`, modelled as `none`. -/
def parseHM (s : String) : Option (Nat × Nat) :=
  match splitOnChar ':' s.toList with
  | [hs, ms] =>
      match py_int hs, py_int ms with
      | some hv, some mv =>
          if hs.length ≤ 2 && ms.length ≤ 2 && hv ≤ 23 && mv ≤ 59 then
            some (hv, mv)
          else none
      | _, _ => none
  | _ => none

/-- A time-of-day "HH:MM" as microseconds since midnight (Python `time`
objects compare lexicographically on (hour, minute, second, microsecond),
which equals comparing total microseconds). -/
def hm_to_micros (h m : Nat) : Nat :=
  (h * 3600 + m * 60) * 1000000

/-- The Daily Routine status derivation (app.py lines 329-335): parse the
task's `scheduled_time` with `strptime "%H:%M"` (raising — `none` — on a
malformed string), then: completed → "Done"; current time strictly after the
scheduled time → "Overdue"; otherwise → "Upcoming".  `now_micros` is
`datetime.now().time()` as microseconds since midnight. -/
def task_status (completed : Bool) (now_micros : Nat) (sched : String) : Option String :=
  (parseHM sched).map (fun t =>
    if completed then "Done"
    else if hm_to_micros t.1 t.2 < now_micros then "Overdue"
    else "Upcoming")

/-- C3: status is a pure function of the row and the current time:
completed rows are "Done" at every time; an incomplete row is "Overdue"
exactly when the current time-of-day is strictly greater than its scheduled
time and "Upcoming" otherwise; concretely, an incomplete "08:00" task is
"Upcoming" at 07:59 and "Overdue" at 08:01, and a completed one is "Done"
at every time. -/
theorem task_status_pure (completed : Bool) (now : Nat) (s : String)
    (h m : Nat) (hp : parseHM s = some (h, m)) :
    (completed = true → task_status completed now s = some "Done")
    ∧ (completed = false → hm_to_micros h m < now →
        task_status completed now s = some "Overdue")
    ∧ (completed = false → now ≤ hm_to_micros h m →
        task_status completed now s = some "Upcoming")
    ∧ task_status false (hm_to_micros 7 59) "08:00" = some "Upcoming"
    ∧ task_status false (hm_to_micros 8 1) "08:00" = some "Overdue"
    ∧ (∀ t : Nat, task_status true t "08:00" = some "Done") := by
  refine ⟨?_, ?_, ?_, by decide, by decide, ?_⟩
  · intro hc; subst hc; simp [task_status, hp]
  · intro hc hlt; subst hc; simp [task_status, hp, hlt]
  · intro hc hle; subst hc; simp [task_status, hp, Nat.not_lt.mpr hle]
  · intro t
    have hp8 : parseHM "08:00" = some (8, 0) := by decide
    simp [task_status, hp8]

/-- C3 witness: the theorem applied to the concrete "08:00" row. -/
theorem task_status_pure_witness :
    task_status false (hm_to_micros 7 59) "08:00" = some "Upcoming" :=
  (task_status_pure false (hm_to_micros 7 59) "08:00" 8 0 (by decide)).2.2.2.1

/-- `int(scheduled_time.split(":")[0])` (app.py line 223): the hour field of
a task's scheduled time; `none` models the `ValueError` of `int` on a
non-digit field. -/
def task_hour (s : String) : Option Nat :=
  py_int ((splitOnChar ':' s.toList).headD [])

/-- The dashboard's missed-task message
`f"⚠️ MISSED: **{task}** (Scheduled: {scheduled_time})"`. -/
def missed_msg (t : Routine) : String :=
  "⚠️ MISSED: **" ++ t.task ++ "** (Scheduled: " ++ t.scheduled_time ++ ")"

/-- The Dashboard overdue-alert loop (app.py lines 220-225) over today's
task rows (the date-filtered query result): for each incomplete row, in
order, read its scheduled hour and emit a MISSED alert when
`current_hour > task_hour + 1`; a row whose hour field fails `int()` raises,
modelled by `none` for the whole evaluation. -/
def overdue_alerts (current_hour : Nat) : List Routine → Option (List String)
  | [] => some []
  | t :: ts =>
      if t.completed then overdue_alerts current_hour ts
      else
        (task_hour t.scheduled_time).bind (fun th =>
          (overdue_alerts current_hour ts).map (fun rest =>
            if th + 1 < current_hour then missed_msg t :: rest else rest))

/-- Appending task lists composes the alert lists in order. -/
theorem overdue_alerts_append (h : Nat) (l₁ l₂ : List Routine) :
    overdue_alerts h (l₁ ++ l₂)
      = (overdue_alerts h l₁).bind (fun a =>
          (overdue_alerts h l₂).map (fun b => a ++ b)) := by
  induction l₁ with
  | nil =>
      rw [List.nil_append]
      cases hx : overdue_alerts h l₂ <;> simp [overdue_alerts, hx]
  | cons t ts ih =>
      rw [List.cons_append]
      cases hcb : t.completed with
      | true => simp only [overdue_alerts, hcb, if_true]; exact ih
      | false =>
          simp only [overdue_alerts, hcb, Bool.false_eq_true, if_false,
            List.append_eq]
          rw [ih]
          cases task_hour t.scheduled_time with
          | none => simp
          | some th =>
              cases overdue_alerts h ts with
              | none => simp
              | some a =>
                  cases overdue_alerts h l₂ with
                  | none => simp
                  | some b => by_cases hlt : th + 1 < h <;> simp [hlt]

/-- C4: the missed-task alert for an incomplete task of today is emitted if
and only if the current hour strictly exceeds the task's scheduled hour
plus 1, independently of the surrounding rows; concretely, an incomplete
"08:00" task yields no missed alert at current hour 9 and yields the MISSED
alert naming the task and its scheduled time at current hour 10. -/
theorem missed_alert_iff (h th : Nat) (t : Routine) (l₁ l₂ : List Routine)
    (hc : t.completed = false) (hh : task_hour t.scheduled_time = some th) :
    overdue_alerts h (l₁ ++ t :: l₂)
      = (overdue_alerts h l₁).bind (fun a =>
          (overdue_alerts h l₂).map (fun b =>
            a ++ (if th + 1 < h then [missed_msg t] else []) ++ b))
    ∧ overdue_alerts 9 [⟨"2026-10-12", "Breakfast", "08:00", false⟩] = some []
    ∧ overdue_alerts 10 [⟨"2026-10-12", "Breakfast", "08:00", false⟩]
        = some ["⚠️ MISSED: **Breakfast** (Scheduled: 08:00)"] := by
  refine ⟨?_, by decide, by decide⟩
  rw [overdue_alerts_append]
  have hsingle : overdue_alerts h (t :: l₂)
      = (overdue_alerts h l₂).map (fun b =>
          (if th + 1 < h then [missed_msg t] else []) ++ b) := by
    simp only [overdue_alerts, hc, Bool.false_eq_true, if_false, hh, Option.bind_some]
    cases overdue_alerts h l₂ with
    | none => simp
    | some b => by_cases hlt : th + 1 < h <;> simp [hlt]
  rw [hsingle]
  cases overdue_alerts h l₁ with
  | none => simp
  | some a =>
      cases overdue_alerts h l₂ with
      | none => simp
      | some b => simp [List.append_assoc]

/-- C4 witness: the theorem applied to the concrete incomplete "08:00" task
alone, at current hours 9 and 10. -/
theorem missed_alert_iff_witness :
    overdue_alerts 9 [⟨"2026-10-12", "Breakfast", "08:00", false⟩] = some []
    ∧ overdue_alerts 10 [⟨"2026-10-12", "Breakfast", "08:00", false⟩]
        = some ["⚠️ MISSED: **Breakfast** (Scheduled: 08:00)"] :=
  (missed_alert_iff 9 8 ⟨"2026-10-12", "Breakfast", "08:00", false⟩ [] []
      rfl (by decide)).2

/-- A row of the `appointments` table: `date TEXT, doctor TEXT, purpose TEXT`
(the AUTOINCREMENT id is never read by the reminder loop, so it is
omitted). -/
structure Appt where
  date : String
  doctor : String
  purpose : String
  deriving Repr, DecidableEq

/-- Gregorian leap year, as in Python's `calendar`/`datetime`. -/
def isLeap (y : Nat) : Bool :=
  (y % 4 = 0 && !(y % 100 = 0)) || y % 400 = 0

/-- Days in a month of the proleptic Gregorian calendar. -/
def daysInMonth (y m : Nat) : Nat :=
  if m = 2 then (if isLeap y then 29 else 28)
  else if m = 4 || m = 6 || m = 9 || m = 11 then 30 else 31

/-- Days in the months strictly before month `m` of year `y`. -/
def daysBeforeMonth (y m : Nat) : Nat :=
  ((List.range (m - 1)).map (fun i => daysInMonth y (i + 1))).sum

/-- `date.toordinal()`: day number of y-m-d in the proleptic Gregorian
calendar with 0001-01-01 ↦ 1; Python computes `(d₁ - d₂).days` as the
difference of these ordinals. -/
def toOrdinal (y m d : Nat) : Nat :=
  365 * (y - 1) + (y - 1) / 4 - (y - 1) / 100 + (y - 1) / 400
    + daysBeforeMonth y m + d

/-- `datetime.strptime(s, '%Y-%m-%d').date()`: exactly four digits for the
year, one or two digits for month 1-12 and for a day valid for that month
and year, separated by `-`, nothing else; any other string raises
`ValueError`, modelled as `none` (the anonymous `except: pass` swallows
it). -/
def parseDate (s : String) : Option (Nat × Nat × Nat) :=
  match splitOnChar '-' s.toList with
  | [ys, ms, ds] =>
      match py_int ys, py_int ms, py_int ds with
      | some y, some mo, some d =>
          if ys.length = 4 && ms.length ≤ 2 && ds.length ≤ 2
              && 1 ≤ y && 1 ≤ mo && mo ≤ 12 && 1 ≤ d && d ≤ daysInMonth y mo
          then some (y, mo, d) else none
      | _, _, _ => none
  | _ => none

/-- `f"🔔 REMINDER: Appointment with **{doctor}** is **TODAY**!"` -/
def today_msg (doctor : String) : String :=
  "🔔 REMINDER: Appointment with **" ++ doctor ++ "** is **TODAY**!"

/-- `f"🔔 REMINDER: Appointment with **{doctor}** is **TOMORROW**!"` -/
def tomorrow_msg (doctor : String) : String :=
  "🔔 REMINDER: Appointment with **" ++ doctor ++ "** is **TOMORROW**!"

/-- One iteration of the Shared Calendar reminder loop (app.py lines
413-421): parse the appointment's date; on success emit the TODAY warning
when `(appt_date - today).days == 0` and the TOMORROW warning when it is 1;
a `ValueError` from `strptime` is swallowed by `except: pass`, emitting
nothing. -/
def appt_alerts (today : Nat × Nat × Nat) (r : Appt) : List String :=
  match parseDate r.date with
  | none => []
  | some (y, mo, d) =>
      let delta : Int :=
        (toOrdinal y mo d : Int) - (toOrdinal today.1 today.2.1 today.2.2 : Int)
      if delta = 0 then [today_msg r.doctor]
      else if delta = 1 then [tomorrow_msg r.doctor]
      else []

/-- The whole reminder loop over the (date-ascending) appointment query
result, emitting warnings in row order. -/
def calendar_reminders (today : Nat × Nat × Nat) (appts : List Appt) : List String :=
  appts.foldr (fun r acc => appt_alerts today r ++ acc) []

/-- C5: an appointment dated exactly today yields the TODAY alert naming
its doctor, one dated today+1 the TOMORROW alert, any other parseable date
no alert, and a malformed date no alert; moreover each row's contribution
is independent of the surrounding rows, so a malformed date neither aborts
the loop nor suppresses the alerts of the remaining valid appointments. -/
theorem appointment_alerts (today : Nat × Nat × Nat) (r : Appt)
    (l₁ l₂ : List Appt) :
    (∀ y mo d, parseDate r.date = some (y, mo, d) →
        toOrdinal y mo d = toOrdinal today.1 today.2.1 today.2.2 →
        appt_alerts today r = [today_msg r.doctor])
    ∧ (∀ y mo d, parseDate r.date = some (y, mo, d) →
        toOrdinal y mo d = toOrdinal today.1 today.2.1 today.2.2 + 1 →
        appt_alerts today r = [tomorrow_msg r.doctor])
    ∧ (∀ y mo d, parseDate r.date = some (y, mo, d) →
        toOrdinal y mo d ≠ toOrdinal today.1 today.2.1 today.2.2 →
        toOrdinal y mo d ≠ toOrdinal today.1 today.2.1 today.2.2 + 1 →
        appt_alerts today r = [])
    ∧ (parseDate r.date = none → appt_alerts today r = [])
    ∧ calendar_reminders today (l₁ ++ r :: l₂)
        = calendar_reminders today l₁ ++ appt_alerts today r
          ++ calendar_reminders today l₂ := by
  refine ⟨?_, ?_, ?_, ?_, ?_⟩
  · intro y mo d hp he
    have hz : (toOrdinal y mo d : Int)
        - (toOrdinal today.1 today.2.1 today.2.2 : Int) = 0 := by
      omega
    simp [appt_alerts, hp, hz]
  · intro y mo d hp he
    have hz : (toOrdinal y mo d : Int)
        - (toOrdinal today.1 today.2.1 today.2.2 : Int) = 1 := by
      omega
    simp [appt_alerts, hp, hz]
  · intro y mo d hp hne0 hne1
    have hz0 : (toOrdinal y mo d : Int)
        - (toOrdinal today.1 today.2.1 today.2.2 : Int) ≠ 0 := by
      omega
    have hz1 : (toOrdinal y mo d : Int)
        - (toOrdinal today.1 today.2.1 today.2.2 : Int) ≠ 1 := by
      omega
    simp [appt_alerts, hp, hz0, hz1]
  · intro hp
    simp [appt_alerts, hp]
  · induction l₁ with
    | nil => simp [calendar_reminders]
    | cons a l ih =>
        simp only [List.cons_append, calendar_reminders, List.foldr_cons] at *
        rw [ih]
        simp [List.append_assoc]

/-- C5 witness: a malformed date sandwiched between an appointment today
(2026-10-12) and one tomorrow still lets both valid alerts through. -/
theorem appointment_alerts_witness :
    calendar_reminders (2026, 10, 12)
        [⟨"2026-10-12", "Dr. Lee", "Checkup"⟩,
         ⟨"not-a-date", "Dr. X", "?"⟩,
         ⟨"2026-10-13", "Dr. Kim", "Labs"⟩]
      = [today_msg "Dr. Lee", tomorrow_msg "Dr. Kim"] := by
  have he := (appointment_alerts (2026, 10, 12) ⟨"not-a-date", "Dr. X", "?"⟩
      [⟨"2026-10-12", "Dr. Lee", "Checkup"⟩]
      [⟨"2026-10-13", "Dr. Kim", "Labs"⟩]).2.2.2.2
  exact he.trans (by decide)

/-- Result of `ask_ai`: either a JSON object (a string-keyed mapping —
the string-valued fields are the only ones the embedded handlers read) or
the raw response text when `json_mode` is off. -/
inductive AskResult where
  | obj (d : List (String × String))
  | text (s : String)
  deriving Repr, DecidableEq

/-- The `{"error": str(e)}` object `ask_ai` returns from its `except`. -/
def error_obj (msg : String) : List (String × String) :=
  [("error", msg)]

/-- `ask_ai` (app.py lines 138-150).  The external call and `json.loads`
are the environment: `provider` is the completion call's outcome (content
or raised error) and `json_loads` the parse outcome for a given content
(mapping or raised error).  Both kinds of exception are caught by the one
`try`, which returns `{"error": str(e)}`; with `json_mode` the parsed
mapping is returned, otherwise the raw text. -/
def ask_ai (provider : Except String String) (json_mode : Bool)
    (json_loads : String → Except String (List (String × String))) : AskResult :=
  match provider with
  | .error e => .obj (error_obj e)
  | .ok content =>
      if json_mode then
        match json_loads content with
        | .error e => .obj (error_obj e)
        | .ok d => .obj d
      else .text content

/-- C7: the gateway never raises past its boundary: a provider error, and a
structured-parse failure under the structured flag, both return the error
object whose "error" field carries the message; a structured success
returns the parsed mapping; with the flag unset the raw text is
returned. -/
theorem ask_ai_boundary :
    (∀ (msg : String) (jm : Bool)
        (p : String → Except String (List (String × String))),
        ask_ai (.error msg) jm p = .obj (error_obj msg)
        ∧ (error_obj msg).lookup "error" = some msg)
    ∧ (∀ (c msg : String) (p : String → Except String (List (String × String))),
        p c = .error msg →
        ask_ai (.ok c) true p = .obj (error_obj msg)
        ∧ (error_obj msg).lookup "error" = some msg)
    ∧ (∀ (c : String) (d : List (String × String))
        (p : String → Except String (List (String × String))),
        p c = .ok d → ask_ai (.ok c) true p = .obj d)
    ∧ (∀ (c : String) (p : String → Except String (List (String × String))),
        ask_ai (.ok c) false p = .text c) := by
  refine ⟨?_, ?_, ?_, ?_⟩
  · intro msg jm p
    exact ⟨rfl, rfl⟩
  · intro c msg p hp
    exact ⟨by simp [ask_ai, hp], rfl⟩
  · intro c d p hp
    simp [ask_ai, hp]
  · intro c p
    rfl

/-- C7 witness: a concrete provider error and a concrete parse failure both
surface as the error object. -/
theorem ask_ai_boundary_witness :
    ask_ai (.error "boom") true (fun _ => .ok []) = .obj (error_obj "boom")
    ∧ ask_ai (.ok "not json") true (fun _ => .error "Expecting value")
        = .obj (error_obj "Expecting value") :=
  ⟨(ask_ai_boundary.1 "boom" true (fun _ => .ok [])).1,
   (ask_ai_boundary.2.1 "not json" "Expecting value"
      (fun _ => .error "Expecting value") rfl).1⟩

/-- A row of the `logs` table: `id INTEGER PRIMARY KEY AUTOINCREMENT,
timestamp DATETIME DEFAULT CURRENT_TIMESTAMP, author TEXT, original_text
TEXT, category TEXT, severity TEXT`. -/
structure LogEntry where
  id : Nat
  timestamp : String
  author : String
  original_text : String
  category : String
  severity : String
  deriving Repr, DecidableEq

/-- The id SQLite assigns to the inserted row (strictly greater than every
existing id). -/
def next_log_id (logs : List LogEntry) : Nat :=
  (logs.map (fun l => l.id)).foldr max 0 + 1

/-- Python `dict.get(k, dflt)` on a string-valued mapping. -/
def dict_get (d : List (String × String)) (k dflt : String) : String :=
  match d.find? (fun p => p.1 = k) with
  | some p => p.2
  | none => dflt

/-- `INSERT INTO logs (author, original_text, category, severity)` of the
Submit Log handler, with `analysis.get('category', 'General')` and
`analysis.get('severity', 'Low')`; `ts` is the row's
`CURRENT_TIMESTAMP`. -/
def log_insert (logs : List LogEntry) (ts author txt : String)
    (analysis : List (String × String)) : List LogEntry :=
  logs ++ [⟨next_log_id logs, ts, author, txt,
            dict_get analysis "category" "General",
            dict_get analysis "severity" "Low"⟩]

/-- The Submit Log handler (app.py lines 243-250): classify the text with
`ask_ai` (structured mode), then insert the row with the mapping's category
and severity, defaulting to "General"/"Low" when the keys are absent.
`none` models the `AttributeError` that a bare string result would raise
before the insert — which the structured mode makes unreachable. -/
def submit_log (provider : Except String String)
    (json_loads : String → Except String (List (String × String)))
    (ts author txt : String) (logs : List LogEntry) : Option (List LogEntry) :=
  match ask_ai provider true json_loads with
  | .obj d => some (log_insert logs ts author txt d)
  | .text _ => none

/-- C6: a failed classification never prevents the log write.  The submit
handler always inserts (its `ask_ai` call is structured, so the result is
always a mapping); when the provider call fails, and when the structured
parse fails, the row is still appended with category "General" and
severity "Low" and the table grows by exactly one row. -/
theorem submit_log_degrades (provider : Except String String)
    (json_loads : String → Except String (List (String × String)))
    (ts author txt : String) (logs : List LogEntry) :
    (submit_log provider json_loads ts author txt logs).isSome
    ∧ (∀ msg, provider = .error msg →
        submit_log provider json_loads ts author txt logs
          = some (logs ++ [⟨next_log_id logs, ts, author, txt, "General", "Low"⟩]))
    ∧ (∀ c msg, provider = .ok c → json_loads c = .error msg →
        submit_log provider json_loads ts author txt logs
          = some (logs ++ [⟨next_log_id logs, ts, author, txt, "General", "Low"⟩]))
    ∧ (∀ res, submit_log provider json_loads ts author txt logs = some res →
        res.length = logs.length + 1) := by
  have hdefault : ∀ msg : String,
      log_insert logs ts author txt (error_obj msg)
        = logs ++ [⟨next_log_id logs, ts, author, txt, "General", "Low"⟩] := by
    intro msg
    rfl
  refine ⟨?_, ?_, ?_, ?_⟩
  · cases provider with
    | error e => simp [submit_log, ask_ai]
    | ok c =>
        cases hp : json_loads c <;> simp [submit_log, ask_ai, hp]
  · intro msg hp
    subst hp
    simpa [submit_log, ask_ai] using hdefault msg
  · intro c msg hp hl
    subst hp
    simp [submit_log, ask_ai, hl, hdefault msg]
  · intro res hres
    have : ∀ d, res = log_insert logs ts author txt d → res.length = logs.length + 1 := by
      intro d hd
      subst hd
      simp [log_insert]
    cases hask : ask_ai provider true json_loads with
    | obj d =>
        rw [submit_log, hask] at hres
        exact this d (by injection hres.symm)
    | text s =>
        rw [submit_log, hask] at hres
        cases hres

/-- C6 witness: a concrete provider failure still writes the row with the
default classification. -/
theorem submit_log_degrades_witness :
    submit_log (.error "APIConnectionError") (fun _ => .ok [])
        "2026-10-12 09:00:00" "Nurse" "Fell in hallway" []
      = some [⟨1, "2026-10-12 09:00:00", "Nurse", "Fell in hallway",
              "General", "Low"⟩] :=
  (submit_log_degrades (.error "APIConnectionError") (fun _ => .ok [])
      "2026-10-12 09:00:00" "Nurse" "Fell in hallway" []).2.1
    "APIConnectionError" rfl

/-- The running maximum-id scan behind
`SELECT * FROM logs WHERE severity = 'High' ORDER BY id DESC LIMIT 1`:
fold over the High-severity rows keeping the row with the greatest id. -/
def pickLatest (acc : Option LogEntry) : List LogEntry → Option LogEntry
  | [] => acc
  | l :: ls =>
      pickLatest
        (match acc with
         | none => some l
         | some m => if m.id < l.id then some l else some m) ls

/-- The Dashboard `recent_high_risk` query (app.py lines 231-235): the
High-severity row with the greatest id, if any (`id` is the integer primary
key, so `ORDER BY id DESC LIMIT 1` returns the maximal-id row). -/
def recent_high_risk (logs : List LogEntry) : Option LogEntry :=
  pickLatest none (logs.filter (fun l => l.severity = "High"))

/-- `f"🚨 ALERT: {original_text} ({timestamp})"` -/
def high_alert_msg (e : LogEntry) : String :=
  "🚨 ALERT: " ++ e.original_text ++ " (" ++ e.timestamp ++ ")"

/-- The standing alert the dashboard shows (nothing when the query is
empty). -/
def high_risk_alert (logs : List LogEntry) : Option String :=
  (recent_high_risk logs).map high_alert_msg

/-- Helper: `pickLatest` is `none` only from an empty accumulator and list. -/
theorem pickLatest_eq_none (acc : Option LogEntry) (ls : List LogEntry) :
    pickLatest acc ls = none ↔ acc = none ∧ ls = [] := by
  induction ls generalizing acc with
  | nil => simp [pickLatest]
  | cons l ls ih =>
      constructor
      · intro h
        simp only [pickLatest] at h
        rcases acc with _ | m
        · rcases (ih (some l)).mp h with ⟨h1, _⟩
          cases h1
        · rcases (ih _).mp h with ⟨h1, _⟩
          by_cases hlt : m.id < l.id <;> simp [hlt] at h1
      · rintro ⟨h1, h2⟩
        cases h2

/-- Helper: a `some` result of `pickLatest` comes from the list or the
accumulator, and its id dominates both. -/
theorem pickLatest_spec (ls : List LogEntry) :
    ∀ (acc : Option LogEntry) (e : LogEntry), pickLatest acc ls = some e →
      (e ∈ ls ∨ acc = some e)
      ∧ (∀ l ∈ ls, l.id ≤ e.id)
      ∧ (∀ m, acc = some m → m.id ≤ e.id) := by
  induction ls with
  | nil =>
      intro acc e h
      simp only [pickLatest] at h
      exact ⟨Or.inr h, by simp, fun m hm => by rw [hm] at h; cases h; exact le_rfl⟩
  | cons l ls ih =>
      intro acc e h
      simp only [pickLatest] at h
      rcases acc with _ | m
      · obtain ⟨hmem, hdom, hacc⟩ := ih (some l) e h
        have hle : l.id ≤ e.id := hacc l rfl
        refine ⟨?_, ?_, ?_⟩
        · rcases hmem with hm | hm
          · exact Or.inl (List.mem_cons_of_mem l hm)
          · cases hm
            exact Or.inl (List.mem_cons_self _ _)
        · intro x hx
          rcases List.mem_cons.mp hx with rfl | hx
          · exact hle
          · exact hdom x hx
        · intro m hm
          cases hm
      · by_cases hlt : m.id < l.id
        · simp only [hlt, if_true] at h
          obtain ⟨hmem, hdom, hacc⟩ := ih (some l) e h
          have hle : l.id ≤ e.id := hacc l rfl
          refine ⟨?_, ?_, ?_⟩
          · rcases hmem with hm | hm
            · exact Or.inl (List.mem_cons_of_mem l hm)
            · cases hm
              exact Or.inl (List.mem_cons_self _ _)
          · intro x hx
            rcases List.mem_cons.mp hx with rfl | hx
            · exact hle
            · exact hdom x hx
          · intro x hx
            cases hx
            exact le_trans (le_of_lt hlt) hle
        · simp only [hlt, if_false] at h
          obtain ⟨hmem, hdom, hacc⟩ := ih (some m) e h
          have hle : m.id ≤ e.id := hacc m rfl
          refine ⟨?_, ?_, ?_⟩
          · rcases hmem with hm | hm
            · exact Or.inl (List.mem_cons_of_mem l hm)
            · exact Or.inr hm
          · intro x hx
            rcases List.mem_cons.mp hx with rfl | hx
            · exact le_trans (Nat.not_lt.mp hlt) hle
            · exact hdom x hx
          · intro x hx
            cases hx
            exact hle

/-- C8: the dashboard surfaces exactly the most recent (greatest-id)
High-severity log entry: no alert when no High entry exists, and otherwise
exactly one alert, built from the text and timestamp of a High entry of
the table whose id dominates every High entry's id — so older High entries
are never surfaced. -/
theorem high_risk_latest (logs : List LogEntry) :
    (recent_high_risk logs = none ↔ ∀ l ∈ logs, l.severity ≠ "High")
    ∧ (∀ e, recent_high_risk logs = some e →
        e ∈ logs ∧ e.severity = "High"
        ∧ (∀ l ∈ logs, l.severity = "High" → l.id ≤ e.id)
        ∧ high_risk_alert logs = some (high_alert_msg e))
    ∧ ((∃ l ∈ logs, l.severity = "High") →
        ∃ e, recent_high_risk logs = some e) := by
  have hnone : recent_high_risk logs = none ↔ ∀ l ∈ logs, l.severity ≠ "High" := by
    rw [recent_high_risk, pickLatest_eq_none]
    simp [List.filter_eq_nil_iff]
  refine ⟨hnone, ?_, ?_⟩
  · intro e he
    obtain ⟨hmem, hdom, _⟩ := pickLatest_spec _ none e he
    have hmem' : e ∈ logs.filter (fun l => l.severity = "High") := by
      rcases hmem with hm | hm
      · exact hm
      · cases hm
    have := List.mem_filter.mp hmem'
    refine ⟨this.1, by simpa using this.2, ?_, ?_⟩
    · intro l hl hsev
      exact hdom l (List.mem_filter.mpr ⟨hl, by simpa using hsev⟩)
    · simp [high_risk_alert, he]
  · intro ⟨l, hl, hsev⟩
    cases he : recent_high_risk logs with
    | none => exact absurd hsev (hnone.mp he l hl)
    | some e => exact ⟨e, rfl⟩

/-- C8 witness: with two High entries (ids 1 and 2) and a newer Low entry,
exactly the id-2 High entry's text and timestamp are surfaced. -/
theorem high_risk_latest_witness :
    high_risk_alert
        [⟨3, "t3", "Son", "all fine", "General", "Low"⟩,
         ⟨2, "t2", "Nurse", "fall", "Incident", "High"⟩,
         ⟨1, "t1", "Nurse", "fever", "Vitals", "High"⟩]
      = some "🚨 ALERT: fall (t2)" :=
  ((high_risk_latest
      [⟨3, "t3", "Son", "all fine", "General", "Low"⟩,
       ⟨2, "t2", "Nurse", "fall", "Incident", "High"⟩,
       ⟨1, "t1", "Nurse", "fever", "Vitals", "High"⟩]).2.1
    ⟨2, "t2", "Nurse", "fall", "Incident", "High"⟩ (by decide)).2.2.2

/-- Python `d[k] = v` on an insertion-ordered dict: overwrite the value in
place when the key exists, append the pair otherwise. -/
def dict_insert (d : List (String × String)) (k v : String) : List (String × String) :=
  if d.any (fun p => p.1 = k) then d.map (fun p => if p.1 = k then (k, v) else p)
  else d ++ [(k, v)]

/-- `inject_alarm_logic`'s mapping (app.py lines 112-115):
`pending = tasks_df[tasks_df['completed'] == 0]` then
`dict(zip(pending['scheduled_time'], pending['task']))`, i.e. the dict
built by assigning `scheduled_time ↦ task` for each incomplete row in row
order (later rows overwrite earlier rows with the same time). -/
def alarm_data (tasks : List Routine) : List (String × String) :=
  (tasks.filter (fun t => t.completed = false)).foldl
    (fun d t => dict_insert d t.scheduled_time t.task) []

/-- Python `d.get(k)` / `k in d`: the value stored at key `k`. -/
def lookup_str (d : List (String × String)) (k : String) : Option String :=
  (d.find? (fun p => p.1 = k)).map (fun p => p.2)

/-- The task name of the last incomplete task scheduled at `k`, if any. -/
def last_pending_at (tasks : List Routine) (k : String) : Option String :=
  ((tasks.filter (fun t => t.scheduled_time = k && t.completed = false)).getLast?).map
    (fun t => t.task)

/-- Helper: replacing the value at an existing key is found by a lookup of
that key. -/
theorem find?_replace_self (d : List (String × String)) (k v : String)
    (h : d.any (fun p => p.1 = k) = true) :
    (d.map (fun p => if p.1 = k then (k, v) else p)).find? (fun p => p.1 = k)
      = some (k, v) := by
  induction d with
  | nil => cases h
  | cons p ps ih =>
      by_cases hp : p.1 = k
      · simp [hp]
      · have h' : ps.any (fun p => p.1 = k) = true := by
          simp only [List.any_cons, Bool.or_eq_true, decide_eq_true_eq] at h
          rcases h with h | h
          · exact absurd h hp
          · exact h
        simp [hp, ih h']

/-- Helper: replacing the value at key `k'` leaves lookups of any other key
unchanged. -/
theorem find?_replace_other (d : List (String × String)) (k' v k : String)
    (h : ¬ k' = k) :
    (d.map (fun p => if p.1 = k' then (k', v) else p)).find? (fun p => p.1 = k)
      = d.find? (fun p => p.1 = k) := by
  induction d with
  | nil => rfl
  | cons p ps ih =>
      rw [List.map_cons]
      by_cases hp : p.1 = k'
      · have hpk : ¬ p.1 = k := by rw [hp]; exact h
        rw [if_pos hp]
        rw [List.find?_cons_of_neg _ (by simp [h]), List.find?_cons_of_neg _ (by simp [hpk])]
        exact ih
      · rw [if_neg hp]
        by_cases hpk : p.1 = k
        · rw [List.find?_cons_of_pos _ (by simp [hpk]), List.find?_cons_of_pos _ (by simp [hpk])]
        · rw [List.find?_cons_of_neg _ (by simp [hpk]), List.find?_cons_of_neg _ (by simp [hpk])]
          exact ih

/-- Helper: a dict assignment stores `v` at `k'` and changes no other
key. -/
theorem ins_lookup (d : List (String × String)) (k' v k : String) :
    lookup_str (dict_insert d k' v) k
      = if k' = k then some v else lookup_str d k := by
  rw [dict_insert]
  by_cases hany : d.any (fun p => p.1 = k') = true
  · rw [if_pos hany]
    by_cases hk : k' = k
    · subst hk
      rw [if_pos rfl, lookup_str, find?_replace_self d k' v hany]
      rfl
    · rw [if_neg hk, lookup_str, find?_replace_other d k' v k hk]
      rfl
  · rw [if_neg hany]
    have hnone : ∀ x ∈ d, ¬ (x.1 = k') := by
      intro x hx hxk
      exact hany (List.any_eq_true.mpr ⟨x, hx, by simpa using hxk⟩)
    by_cases hk : k' = k
    · subst hk
      have hd : d.find? (fun p => p.1 = k') = none := by
        rw [List.find?_eq_none]
        intro x hx
        simpa using hnone x hx
      simp [lookup_str, List.find?_append, hd]
    · simp [lookup_str, List.find?_append, hk]

/-- Helper: folding the assignments over the pending rows stores, at each
key, the task of the last pending row scheduled there, and otherwise leaves
the initial dict's keys alone. -/
theorem alarm_fold_lookup (k : String) (pend : List Routine) :
    ∀ d, lookup_str (pend.foldl (fun d t => dict_insert d t.scheduled_time t.task) d) k
      = match (pend.filter (fun t => t.scheduled_time = k)).getLast? with
        | some u => some u.task
        | none => lookup_str d k := by
  induction pend with
  | nil =>
      intro d
      simp
  | cons t ts ih =>
      intro d
      rw [List.foldl_cons, ih]
      by_cases hk : t.scheduled_time = k
      · rw [List.filter_cons_of_pos (by simpa using hk), List.getLast?_cons]
        cases hcase : (ts.filter (fun t => t.scheduled_time = k)).getLast? with
        | some u => simp [hcase]
        | none => simp [hcase, ins_lookup, hk]
      · rw [List.filter_cons_of_neg (by simpa using hk)]
        cases hcase : (ts.filter (fun t => t.scheduled_time = k)).getLast? with
        | some u => simp [hcase]
        | none => simp [hcase, ins_lookup, hk]

/-- Two incomplete tasks sharing the scheduled time 08:00. -/
def alarm_cex : List Routine :=
  [⟨"2026-10-12", "Breakfast", "08:00", false⟩,
   ⟨"2026-10-12", "Afternoon Walk", "08:00", false⟩]

/-- C9 counterexample: with two incomplete tasks both scheduled "08:00",
the exported mapping holds only the later task's name — the incomplete
task "Breakfast" is represented by no entry, so the claim that no two
distinct incomplete tasks are lost fails. -/
theorem alarm_data_drops_duplicate_time :
    alarm_data alarm_cex = [("08:00", "Afternoon Walk")]
    ∧ ∃ t ∈ alarm_cex, t.completed = false
        ∧ ∀ p ∈ alarm_data alarm_cex, p.2 ≠ t.task := by
  decide

/-- C9 (amended): the exported mapping is keyed by the scheduled times of
today's incomplete tasks only — a key is present exactly when some
incomplete task is scheduled then, completed tasks contribute no entry,
and each key maps to the task name of the LAST incomplete task with that
scheduled time (earlier incomplete tasks sharing the time are
overwritten, not preserved). -/
theorem alarm_data_characterization (tasks : List Routine) (k : String) :
    lookup_str (alarm_data tasks) k = last_pending_at tasks k := by
  rw [alarm_data, alarm_fold_lookup, last_pending_at]
  simp only [List.filter_filter]
  cases hcase : (tasks.filter
      (fun t => decide (t.scheduled_time = k) && decide (t.completed = false))).getLast? with
  | some u => simp [hcase]
  | none => simp [hcase, lookup_str]

/-- C9 witness: on the duplicate-time example the mapping stores the later
task "Afternoon Walk" at "08:00". -/
theorem alarm_data_characterization_witness :
    lookup_str (alarm_data alarm_cex) "08:00" = some "Afternoon Walk" :=
  (alarm_data_characterization alarm_cex "08:00").trans (by decide)

end SeniorCare
